import Mathlib

/-!
Shallow embedding of the Instacart dashboard data pipeline
(`streamlit_app/app.py`): the join engine (`prepare_merged`), the filter
stage (`filter_data`) and the aggregation/metrics layer (distinct-order
count, average basket size, top reordered product(s), reorder ratio by
department), together with theorems settling the spec claims about them.

Modelling conventions: pandas DataFrames become `List` of row structures;
an inner `merge` on a key column becomes `merge2` (for each left row, all
matching right rows in order); `Series.unique` becomes `uniqueFirst`
(first-occurrence deduplication); `value_counts` becomes a stable sort of
`(name, count)` pairs by descending count; `Series.mean` of an empty
series yields NaN in pandas, modelled as `none`; `idxmax` on an empty
series raises `ValueError` in pandas, likewise modelled as `none`.
-/

namespace Instacart

/-- Row of the `products` table. -/
structure Product where
  product_id : Nat
  product_name : String
  department_id : Nat
deriving DecidableEq, Repr

/-- Row of the `orders` table. -/
structure Order where
  order_id : Nat
  order_hour_of_day : Nat
  order_dow : Nat
deriving DecidableEq, Repr

/-- Row of the `order_products__prior` fact table. -/
structure OrderProduct where
  order_id : Nat
  product_id : Nat
  reordered : Bool
deriving DecidableEq, Repr

/-- Row of the `departments` table. -/
structure Department where
  department_id : Nat
  department : String
deriving DecidableEq, Repr

/-- Row of the denormalized merged table produced by the join engine. -/
structure MergedRow where
  order_id : Nat
  product_id : Nat
  reordered : Bool
  product_name : String
  department_id : Nat
  order_hour_of_day : Nat
  order_dow : Nat
  department : String
deriving DecidableEq, Repr

/-- Inner equality merge of two tables on a single shared (numeric) key
column, as in `left.merge(right, on=key)`: for each left row in order,
all matching right rows in order. -/
def merge2 {α β γ : Type} (left : List α) (right : List β)
    (lkey : α → Nat) (rkey : β → Nat) (combine : α → β → γ) : List γ :=
  left.flatMap fun l => (right.filter fun r => rkey r == lkey l).map fun r => combine l r

/-- Assemble a merged row from one row of each source table. -/
def mkMergedRow (op : OrderProduct) (p : Product) (o : Order) (d : Department) : MergedRow :=
  { order_id := op.order_id, product_id := op.product_id, reordered := op.reordered,
    product_name := p.product_name, department_id := p.department_id,
    order_hour_of_day := o.order_hour_of_day, order_dow := o.order_dow,
    department := d.department }

/-- The join engine: `order_products.merge(products, on='product_id')
.merge(orders, on='order_id').merge(departments, on='department_id')`. -/
def prepare_merged (products : List Product) (orders : List Order)
    (order_products : List OrderProduct) (departments : List Department) : List MergedRow :=
  let m1 := merge2 order_products products (·.product_id) (·.product_id) Prod.mk
  let m2 := merge2 m1 orders (fun x => x.1.order_id) (·.order_id) Prod.mk
  merge2 m2 departments (fun x => x.1.2.department_id) (·.department_id)
    (fun x d => mkMergedRow x.1.1 x.1.2 x.2 d)

/-- The same three joins applied in the order Product, Department, Order. -/
def prepare_mergedPDO (products : List Product) (orders : List Order)
    (order_products : List OrderProduct) (departments : List Department) : List MergedRow :=
  let m1 := merge2 order_products products (·.product_id) (·.product_id) Prod.mk
  let m2 := merge2 m1 departments (fun x => x.2.department_id) (·.department_id) Prod.mk
  merge2 m2 orders (fun x => x.1.1.order_id) (·.order_id)
    (fun x o => mkMergedRow x.1.1 x.1.2 o x.2)

/-- The same three joins applied in the order Order, Product, Department. -/
def prepare_mergedOPD (products : List Product) (orders : List Order)
    (order_products : List OrderProduct) (departments : List Department) : List MergedRow :=
  let m1 := merge2 order_products orders (·.order_id) (·.order_id) Prod.mk
  let m2 := merge2 m1 products (fun x => x.1.product_id) (·.product_id) Prod.mk
  merge2 m2 departments (fun x => x.2.department_id) (·.department_id)
    (fun x d => mkMergedRow x.1.1 x.2 x.1.2 d)

/-- The filter stage:
`merged[(merged["department"] == selected_dept) &
(merged["order_hour_of_day"].between(hour_range[0], hour_range[1]))]`
(`between` is inclusive on both ends). -/
def filter_data (merged : List MergedRow) (selected_dept : String)
    (hour_range : Nat × Nat) : List MergedRow :=
  merged.filter fun row => row.department == selected_dept &&
    (decide (hour_range.1 ≤ row.order_hour_of_day) &&
      decide (row.order_hour_of_day ≤ hour_range.2))

/-- First-occurrence deduplication with an accumulator of already seen
elements; `uniqueFirstAux [] l` models `pandas.Series.unique`. -/
def uniqueFirstAux {α : Type} [DecidableEq α] (seen : List α) : List α → List α
  | [] => []
  | a :: l => if a ∈ seen then uniqueFirstAux seen l else a :: uniqueFirstAux (a :: seen) l

/-- Distinct elements of a list in order of first occurrence
(`Series.unique`). -/
def uniqueFirst {α : Type} [DecidableEq α] (l : List α) : List α :=
  uniqueFirstAux [] l

/-- Metric 1: `filtered_df['order_id'].nunique()`. -/
def total_orders (rows : List MergedRow) : Nat :=
  (uniqueFirst (rows.map (·.order_id))).length

/-- Per-order row counts:
`filtered_df.groupby('order_id')['product_id'].count()`. -/
def basket_sizes (rows : List MergedRow) : List Nat :=
  (uniqueFirst (rows.map (·.order_id))).map fun oid => rows.countP (·.order_id == oid)

/-- Mean of a series; `none` models the NaN that pandas produces for the
mean of an empty series. -/
def series_mean (l : List Rat) : Option Rat :=
  if l.isEmpty then none else some (l.sum / (l.length : Rat))

/-- Metric 2:
`filtered_df.groupby('order_id')['product_id'].count().mean()`. -/
def avg_basket_size (rows : List MergedRow) : Option Rat :=
  series_mean ((basket_sizes rows).map fun n => (n : Rat))

/-- Descending order on the count component of a `value_counts` entry. -/
def countDesc (a b : String × Nat) : Prop := b.2 ≤ a.2

instance : DecidableRel countDesc := fun a b => Nat.decLe b.2 a.2

instance : IsTotal (String × Nat) countDesc := ⟨fun a b => Nat.le_total b.2 a.2⟩

instance : IsTrans (String × Nat) countDesc := ⟨fun _ _ _ h1 h2 => Nat.le_trans h2 h1⟩

/-- `Series.value_counts()`: pairs `(value, frequency)` over the distinct
values in order of first occurrence, stably sorted by descending
frequency. -/
def value_counts (names : List String) : List (String × Nat) :=
  List.insertionSort countDesc ((uniqueFirst names).map fun n => (n, names.countP (· == n)))

/-- The product names of the reordered rows of a subset:
`rows[rows['reordered'] == 1]['product_name']`. -/
def reordered_names (rows : List MergedRow) : List String :=
  (rows.filter (·.reordered)).map (·.product_name)

/-- Metric 3:
`filtered_df[filtered_df['reordered'] == 1]['product_name'].value_counts().idxmax()`;
`none` models the `ValueError` that `idxmax` raises on an empty series. -/
def top_product (rows : List MergedRow) : Option String :=
  (value_counts (reordered_names rows)).head?.map (·.1)

/-- Tab 1 aggregate:
`filtered_df[filtered_df["reordered"] == 1]["product_name"].value_counts().head(top_n)`. -/
def top_products (rows : List MergedRow) (top_n : Nat) : List (String × Nat) :=
  (value_counts (reordered_names rows)).take top_n

/-- Descending order on the ratio component of a reorder-ratio entry. -/
def ratioDesc (a b : String × Rat) : Prop := b.2 ≤ a.2

instance : DecidableRel ratioDesc := fun a b => inferInstanceAs (Decidable (b.2 ≤ a.2))

instance : IsTotal (String × Rat) ratioDesc := ⟨fun a b => le_total b.2 a.2⟩

instance : IsTrans (String × Rat) ratioDesc := ⟨fun _ _ _ h1 h2 => le_trans h2 h1⟩

/-- Group keys of `rows.groupby("department")`: the distinct department
names, sorted (pandas `groupby` sorts its keys). -/
def group_keys (rows : List MergedRow) : List String :=
  List.insertionSort (fun a b => a ≤ b) (uniqueFirst (rows.map (·.department)))

/-- Mean of the 0/1 `reordered` column of a subset. -/
def flag_mean (rows : List MergedRow) : Rat :=
  ((rows.map fun r => if r.reordered then (1 : Rat) else 0).sum) / (rows.length : Rat)

/-- Tab 5 aggregate:
`filtered_df.groupby("department")["reordered"].mean().sort_values(ascending=False)`. -/
def reorder_ratio (rows : List MergedRow) : List (String × Rat) :=
  List.insertionSort ratioDesc
    ((group_keys rows).map fun d => (d, flag_mean (rows.filter (·.department == d))))

/-- Sidebar department options: `merged["department"].unique()`. -/
def dept_options (merged : List MergedRow) : List String :=
  uniqueFirst (merged.map (·.department))

/-- The entries of the department select box: `sorted(dept_options)`. -/
def selectable_departments (merged : List MergedRow) : List String :=
  List.insertionSort (fun a b => a ≤ b) (dept_options merged)

/-- Definition following the spec text for the Reorder Ratio by Department
aggregate: "mean of the reordered flag grouped by department, sorted
descending", with each group mean written as (number of reordered rows of
the department) / (number of rows of the department). -/
def specGroupedReorderMean (rows : List MergedRow) : List (String × Rat) :=
  List.insertionSort ratioDesc ((group_keys rows).map fun d =>
    (d, ((rows.countP fun r => r.department == d && r.reordered : Nat) : Rat) /
      ((rows.countP fun r => r.department == d : Nat) : Rat)))

/-- Fixture of the spec's end-to-end example: the `products` table. -/
def exProducts : List Product := [⟨10, "Bananas", 1⟩, ⟨11, "Milk", 2⟩]

/-- Fixture of the spec's end-to-end example: the `orders` table. -/
def exOrders : List Order := [⟨1, 9, 0⟩, ⟨2, 15, 1⟩]

/-- Fixture of the spec's end-to-end example: the fact table. -/
def exOrderProducts : List OrderProduct := [⟨1, 10, true⟩, ⟨1, 11, false⟩, ⟨2, 10, true⟩]

/-- Fixture of the spec's end-to-end example: the `departments` table. -/
def exDepartments : List Department := [⟨1, "produce"⟩, ⟨2, "dairy"⟩]

/-- The merged table of the end-to-end fixture. -/
def exMerged : List MergedRow :=
  prepare_merged exProducts exOrders exOrderProducts exDepartments

/-! Helper lemmas -/

theorem mem_uniqueFirstAux {α : Type} [DecidableEq α] {a : α} {seen l : List α} :
    a ∈ uniqueFirstAux seen l ↔ a ∈ l ∧ a ∉ seen := by
  induction l generalizing seen with
  | nil => simp [uniqueFirstAux]
  | cons b l ih =>
    by_cases hb : b ∈ seen
    · simp only [uniqueFirstAux, if_pos hb, ih, List.mem_cons]
      constructor
      · exact fun ⟨h1, h2⟩ => ⟨Or.inr h1, h2⟩
      · rintro ⟨rfl | h1, h2⟩
        · exact absurd hb h2
        · exact ⟨h1, h2⟩
    · simp only [uniqueFirstAux, if_neg hb, List.mem_cons, ih]
      constructor
      · rintro (rfl | ⟨h1, h2⟩)
        · exact ⟨Or.inl rfl, hb⟩
        · exact ⟨Or.inr h1, fun hs => h2 (Or.inr hs)⟩
      · rintro ⟨rfl | h1, h2⟩
        · exact Or.inl rfl
        · rcases eq_or_ne a b with rfl | hab
          · exact Or.inl rfl
          · exact Or.inr ⟨h1, fun hor => hor.elim hab h2⟩

theorem mem_uniqueFirst {α : Type} [DecidableEq α] {a : α} {l : List α} :
    a ∈ uniqueFirst l ↔ a ∈ l := by
  simp [uniqueFirst, mem_uniqueFirstAux]

theorem uniqueFirst_eq_nil {α : Type} [DecidableEq α] {l : List α} :
    uniqueFirst l = [] ↔ l = [] := by
  constructor
  · intro h
    rw [List.eq_nil_iff_forall_not_mem]
    intro a ha
    exact (List.eq_nil_iff_forall_not_mem.mp h) a (mem_uniqueFirst.mpr ha)
  · rintro rfl
    rfl

theorem mem_merge2 {α β γ : Type} {left : List α} {right : List β}
    {lkey : α → Nat} {rkey : β → Nat} {combine : α → β → γ} {x : γ} :
    x ∈ merge2 left right lkey rkey combine ↔
      ∃ l ∈ left, ∃ r ∈ right, rkey r = lkey l ∧ x = combine l r := by
  simp only [merge2, List.mem_flatMap, List.mem_map, List.mem_filter, beq_iff_eq]
  constructor
  · rintro ⟨l, hl, r, ⟨hr, hk⟩, rfl⟩
    exact ⟨l, hl, r, hr, hk, rfl⟩
  · rintro ⟨l, hl, r, hr, hk, rfl⟩
    exact ⟨l, hl, r, ⟨hr, hk⟩, rfl⟩

theorem length_merge2_of_unique {α β γ : Type} {left : List α} {right : List β}
    {lkey : α → Nat} {rkey : β → Nat} {combine : α → β → γ}
    (h : ∀ l ∈ left, (right.filter fun r => rkey r == lkey l).length = 1) :
    (merge2 left right lkey rkey combine).length = left.length := by
  rw [merge2, List.length_flatMap]
  induction left with
  | nil => rfl
  | cons a l ih =>
    simp only [List.map_cons, List.sum_cons, Function.comp_apply, List.length_map,
      h a (List.mem_cons_self a l), List.length_cons]
    rw [ih fun x hx => h x (List.mem_cons_of_mem a hx)]
    omega

theorem filter_key_length_one {β : Type} {right : List β} {rkey : β → Nat} {k : Nat}
    (hnd : (right.map rkey).Nodup) (hex : ∃ r ∈ right, rkey r = k) :
    (right.filter fun r => rkey r == k).length = 1 := by
  induction right with
  | nil => simp at hex
  | cons b l ih =>
    rw [List.map_cons, List.nodup_cons] at hnd
    by_cases hb : rkey b = k
    · have hnone : ∀ r ∈ l, ¬(rkey r == k) = true := by
        intro r hr hrk
        exact hnd.1 (hb ▸ (beq_iff_eq.mp hrk) ▸ List.mem_map_of_mem rkey hr)
      have hnil : List.filter (fun r => rkey r == k) l = [] :=
        List.filter_eq_nil_iff.mpr hnone
      have hb' : (rkey b == k) = true := beq_iff_eq.mpr hb
      simp [List.filter_cons, hb', hnil]
    · rcases hex with ⟨r, hr, hrk⟩
      rcases List.mem_cons.mp hr with rfl | hr'
      · exact absurd hrk hb
      · have hb' : (rkey b == k) = false := by simpa using hb
        simp only [List.filter_cons, hb', Bool.false_eq_true, if_false]
        exact ih hnd.2 ⟨r, hr', hrk⟩

theorem sum_indicator_eq_countP (l : List MergedRow) :
    (l.map fun r => if r.reordered then (1 : Rat) else 0).sum =
      ((l.countP (·.reordered) : Nat) : Rat) := by
  induction l with
  | nil => simp
  | cons a l ih =>
    by_cases h : a.reordered
    · simp [h, ih, List.countP_cons, add_comm]
    · simp [h, ih, List.countP_cons]

theorem value_counts_entry {names : List String} {n : String} {c : Nat}
    (h : (n, c) ∈ value_counts names) :
    n ∈ names ∧ c = names.countP (· == n) := by
  rw [value_counts, (List.perm_insertionSort _ _).mem_iff] at h
  rcases List.mem_map.mp h with ⟨m, hm, he⟩
  obtain ⟨rfl, rfl⟩ : m = n ∧ names.countP (· == m) = c := by
    constructor
    · exact congrArg Prod.fst he
    · exact congrArg Prod.snd he
  exact ⟨mem_uniqueFirst.mp hm, rfl⟩

theorem mem_value_counts {names : List String} {n : String} (h : n ∈ names) :
    (n, names.countP (· == n)) ∈ value_counts names := by
  rw [value_counts, (List.perm_insertionSort _ _).mem_iff]
  exact List.mem_map_of_mem _ (mem_uniqueFirst.mpr h)

theorem value_counts_eq_nil {names : List String} :
    value_counts names = [] ↔ names = [] := by
  constructor
  · intro h
    have := congrArg List.length h
    rw [value_counts, (List.perm_insertionSort _ _).length_eq, List.length_map] at this
    simpa [uniqueFirst_eq_nil] using List.length_eq_zero.mp this
  · rintro rfl
    rfl

/-! Claim theorems -/

/-- C4: for every merged table, department name and hour range, the filter
stage returns exactly the rows whose department equals the selected name
and whose hour lies in the inclusive range `[lo, hi]`; being a total
function on lists it returns `[]` (never an error) when nothing matches. -/
theorem filter_data_mem_iff (merged : List MergedRow) (name : String) (lo hi : Nat)
    (row : MergedRow) :
    row ∈ filter_data merged name (lo, hi) ↔
      row ∈ merged ∧ row.department = name ∧
        lo ≤ row.order_hour_of_day ∧ row.order_hour_of_day ≤ hi := by
  simp [filter_data, List.mem_filter, and_assoc]

/-- C8: the Top-N Reordered Products list for `N = k` is contained in the
list for `N = k + 1`: increasing the slider never removes a product. -/
theorem top_products_monotone (rows : List MergedRow) (k : Nat)
    (_h5 : 5 ≤ k) (_h30 : k < 30) (p : String × Nat)
    (hp : p ∈ top_products rows k) : p ∈ top_products rows (k + 1) := by
  rw [top_products] at hp ⊢
  have h : (value_counts (reordered_names rows)).take k =
      ((value_counts (reordered_names rows)).take (k + 1)).take k := by
    rw [List.take_take]
    congr 1
    omega
  rw [h] at hp
  exact List.take_subset _ _ hp

/-- Witness for C8 at the end-to-end fixture with `k = 5`. -/
theorem top_products_monotone_witness :
    ("Bananas", 2) ∈ top_products (filter_data exMerged "produce" (0, 23)) 6 :=
  top_products_monotone (filter_data exMerged "produce" (0, 23)) 5
    (by decide) (by decide) ("Bananas", 2) (by decide)

/-- C1: a department/hour selection with zero matching rows does not reach
a well-defined empty state in the reference code: the average-basket-size
mean is the NaN of an empty mean (modelled `none`) and the top-product
`idxmax` fails (modelled `none`), exactly as at this concrete empty
selection of the end-to-end fixture. -/
theorem empty_selection_metrics :
    filter_data exMerged "produce" (10, 14) = [] ∧
    total_orders (filter_data exMerged "produce" (10, 14)) = 0 ∧
    avg_basket_size (filter_data exMerged "produce" (10, 14)) = none ∧
    top_product (filter_data exMerged "produce" (10, 14)) = none := by
  decide

/-- C7: on the spec's end-to-end fixture, filtering to department
`produce` with the full hour range yields Total Orders 2, Average Basket
Size 1 and Top Reordered Product `Bananas`. -/
theorem end_to_end_example :
    total_orders (filter_data exMerged "produce" (0, 23)) = 2 ∧
    avg_basket_size (filter_data exMerged "produce" (0, 23)) = some 1 ∧
    top_product (filter_data exMerged "produce" (0, 23)) = some "Bananas" := by
  refine ⟨by decide, ?_, by decide⟩
  have h : basket_sizes (filter_data exMerged "produce" (0, 23)) = [1, 1] := by decide
  rw [avg_basket_size, h, series_mean]
  norm_num

theorem length_reorder_ratio (rows : List MergedRow) :
    (reorder_ratio rows).length = (uniqueFirst (rows.map (·.department))).length := by
  rw [reorder_ratio, (List.perm_insertionSort _ _).length_eq, List.length_map,
    group_keys, (List.perm_insertionSort _ _).length_eq]

theorem reorder_ratio_eq_specGroupedReorderMean (rows : List MergedRow) :
    reorder_ratio rows = specGroupedReorderMean rows := by
  rw [reorder_ratio, specGroupedReorderMean]
  congr 1
  apply List.map_congr_left
  intro d _
  refine Prod.ext rfl ?_
  show flag_mean (rows.filter (·.department == d)) = _
  rw [flag_mean, sum_indicator_eq_countP, List.countP_filter,
    ← List.countP_eq_length_filter]
  congr 2
  · exact List.countP_congr fun r _ => by rw [Bool.and_comm]

/-- C2 counterexample: on the end-to-end fixture with department
`produce` selected and the full hour range, the tab-5 aggregate computed
by the code differs from the claimed selection-independent value over the
unfiltered merged table (the code's chart lists one department, the
claimed value two). -/
theorem reorder_ratio_depends_on_selection :
    reorder_ratio (filter_data exMerged "produce" (0, 23)) ≠ reorder_ratio exMerged := by
  intro h
  have h2 := congrArg List.length h
  rw [length_reorder_ratio, length_reorder_ratio] at h2
  revert h2
  decide

/-- C2 (amended): the Reorder Ratio by Department aggregate is computed
over the department-filtered subset, not the unfiltered merged table: for
every merged table and selection it equals the mean of the reordered flag
grouped by department over the *filtered* rows, sorted descending. -/
theorem reorder_ratio_spec_on_filtered (merged : List MergedRow) (name : String)
    (lo hi : Nat) :
    reorder_ratio (filter_data merged name (lo, hi)) =
      specGroupedReorderMean (filter_data merged name (lo, hi)) :=
  reorder_ratio_eq_specGroupedReorderMean _

/-- C9: every ratio appearing in the Reorder Ratio by Department result
lies in the closed interval `[0, 1]`. -/
theorem reorder_ratio_bounds (rows : List MergedRow) (d : String) (r : Rat)
    (h : (d, r) ∈ reorder_ratio rows) : 0 ≤ r ∧ r ≤ 1 := by
  rw [reorder_ratio, (List.perm_insertionSort _ _).mem_iff] at h
  rcases List.mem_map.mp h with ⟨d', hd', he⟩
  have hd2 : d' ∈ rows.map (·.department) := mem_uniqueFirst.mp (by
    rw [group_keys, (List.perm_insertionSort _ _).mem_iff] at hd'
    exact hd')
  have hr : r = flag_mean (rows.filter (·.department == d')) := (congrArg Prod.snd he).symm
  rcases List.mem_map.mp hd2 with ⟨row, hrow, hdep⟩
  have hmem : row ∈ rows.filter (·.department == d') :=
    List.mem_filter.mpr ⟨hrow, by simp [hdep]⟩
  have hlen : 0 < (rows.filter (·.department == d')).length :=
    List.length_pos.mpr (List.ne_nil_of_mem hmem)
  rw [hr, flag_mean, sum_indicator_eq_countP]
  constructor
  · exact div_nonneg (by positivity) (by positivity)
  · rw [div_le_one (by exact_mod_cast hlen)]
    exact_mod_cast List.countP_le_length _

/-- Witness for C9: the `dairy` entry of the fixture's unfiltered
reorder-ratio chart has ratio `0`, which lies in `[0, 1]`. -/
theorem reorder_ratio_bounds_witness : (0 : Rat) ≤ 0 ∧ (0 : Rat) ≤ 1 := by
  refine reorder_ratio_bounds exMerged "dairy" 0 ?_
  rw [reorder_ratio, (List.perm_insertionSort _ _).mem_iff]
  apply List.mem_map.mpr
  refine ⟨"dairy", ?_, ?_⟩
  · rw [group_keys, (List.perm_insertionSort _ _).mem_iff]
    decide
  · have h : exMerged.filter (·.department == "dairy") =
        [⟨1, 11, false, "Milk", 2, 9, 0, "dairy"⟩] := by decide
    rw [h]
    simp [flag_mean]

/-- C10: the selectable department options are exactly the distinct
department names of the merged table, and (all hours being at most 23)
each of them yields a non-empty subset under the full hour range, so an
empty subset can only come from a narrowed hour range. -/
theorem selectable_departments_spec (merged : List MergedRow)
    (hhour : ∀ row ∈ merged, row.order_hour_of_day ≤ 23) :
    (∀ d, d ∈ selectable_departments merged ↔ ∃ row ∈ merged, row.department = d) ∧
    ∀ d ∈ selectable_departments merged, filter_data merged d (0, 23) ≠ [] := by
  have hmem : ∀ d, d ∈ selectable_departments merged ↔
      ∃ row ∈ merged, row.department = d := by
    intro d
    rw [selectable_departments, (List.perm_insertionSort _ _).mem_iff, dept_options,
      mem_uniqueFirst, List.mem_map]
  refine ⟨hmem, fun d hd => ?_⟩
  rcases (hmem d).mp hd with ⟨row, hrow, rfl⟩
  have hin : row ∈ filter_data merged row.department (0, 23) := by
    rw [filter_data, List.mem_filter]
    exact ⟨hrow, by simp [hhour row hrow]⟩
  exact List.ne_nil_of_mem hin

/-- Witness for C10 at the end-to-end fixture: `produce` is selectable
and its full-hour-range subset is non-empty. -/
theorem selectable_departments_spec_witness :
    filter_data exMerged "produce" (0, 23) ≠ [] := by
  refine (selectable_departments_spec exMerged (by decide)).2 "produce" ?_
  rw [selectable_departments, (List.perm_insertionSort _ _).mem_iff]
  decide

/-- C3: the Top Reordered Product metric fails (the `idxmax` `ValueError`,
modelled `none`) exactly when no row of the subset is reordered, and any
product it does return attains the maximal frequency among the reordered
rows of the subset. -/
theorem top_product_spec (rows : List MergedRow) :
    (top_product rows = none ↔ ∀ row ∈ rows, row.reordered = false) ∧
    ∀ name, top_product rows = some name →
      name ∈ reordered_names rows ∧
      ∀ other, (reordered_names rows).countP (· == other) ≤
        (reordered_names rows).countP (· == name) := by
  constructor
  · rw [top_product, Option.map_eq_none', List.head?_eq_none_iff, value_counts_eq_nil,
      reordered_names, List.map_eq_nil_iff, List.filter_eq_nil_iff]
    constructor
    · intro h row hrow
      simpa using h row hrow
    · intro h row hrow
      simp [h row hrow]
  · intro name hname
    rw [top_product] at hname
    rcases hvc : value_counts (reordered_names rows) with _ | ⟨⟨n, c⟩, tl⟩
    · rw [hvc] at hname
      simp at hname
    · rw [hvc] at hname
      simp only [List.head?_cons, Option.map_some'] at hname
      replace hname : n = name := Option.some.inj hname
      subst hname
      have hhd : (n, c) ∈ value_counts (reordered_names rows) := by
        rw [hvc]
        exact List.mem_cons_self _ _
      obtain ⟨hn, hc⟩ := value_counts_entry hhd
      refine ⟨hn, fun other => ?_⟩
      by_cases ho : other ∈ reordered_names rows
      · have hmm := mem_value_counts ho
        rw [hvc] at hmm
        rcases List.mem_cons.mp hmm with heq | htl
        · have h1 : other = n := congrArg Prod.fst heq
          rw [h1]
        · have hsorted : List.Sorted countDesc (value_counts (reordered_names rows)) :=
            List.sorted_insertionSort _ _
          rw [hvc, List.sorted_cons] at hsorted
          have hle : (reordered_names rows).countP (· == other) ≤ c := hsorted.1 _ htl
          rw [← hc]
          exact hle
      · have hz : (reordered_names rows).countP (· == other) = 0 := by
          rw [List.countP_eq_zero]
          intro a ha hba
          exact ho ((beq_iff_eq.mp hba) ▸ ha)
        rw [hz]
        exact Nat.zero_le _

/-- Witness for C3 at the end-to-end fixture: `Bananas` is returned, it
occurs among the reordered rows, and no other product (here `Milk`) beats
its frequency. -/
theorem top_product_spec_witness :
    "Bananas" ∈ reordered_names (filter_data exMerged "produce" (0, 23)) ∧
    (reordered_names (filter_data exMerged "produce" (0, 23))).countP (· == "Milk") ≤
      (reordered_names (filter_data exMerged "produce" (0, 23))).countP (· == "Bananas") := by
  obtain ⟨ha, hb⟩ :=
    (top_product_spec (filter_data exMerged "produce" (0, 23))).2 "Bananas" (by decide)
  exact ⟨ha, hb "Milk"⟩

/-- C5: under referential integrity (each fact row's product and order
keys exist in the dimension tables, each referenced product's department
key exists in the departments table) and unique dimension keys, the
merged table has exactly one row per `order_products` row. -/
theorem prepare_merged_length (products : List Product) (orders : List Order)
    (order_products : List OrderProduct) (departments : List Department)
    (hp : (products.map (·.product_id)).Nodup)
    (ho : (orders.map (·.order_id)).Nodup)
    (hd : (departments.map (·.department_id)).Nodup)
    (h1 : ∀ op ∈ order_products, ∃ p ∈ products, p.product_id = op.product_id)
    (h2 : ∀ op ∈ order_products, ∃ o ∈ orders, o.order_id = op.order_id)
    (h3 : ∀ p ∈ products, (∃ op ∈ order_products, op.product_id = p.product_id) →
      ∃ d ∈ departments, d.department_id = p.department_id) :
    (prepare_merged products orders order_products departments).length =
      order_products.length := by
  show (merge2 (merge2 (merge2 order_products products (·.product_id) (·.product_id) Prod.mk)
      orders (fun x => x.1.order_id) (·.order_id) Prod.mk)
      departments (fun x => x.1.2.department_id) (·.department_id)
      (fun x d => mkMergedRow x.1.1 x.1.2 x.2 d)).length = order_products.length
  have l1 : (merge2 order_products products (·.product_id) (·.product_id) Prod.mk).length =
      order_products.length := by
    apply length_merge2_of_unique
    intro op hop
    exact filter_key_length_one hp (h1 op hop)
  have l2 : (merge2 (merge2 order_products products (·.product_id) (·.product_id) Prod.mk)
      orders (fun x => x.1.order_id) (·.order_id) Prod.mk).length =
      (merge2 order_products products (·.product_id) (·.product_id) Prod.mk).length := by
    apply length_merge2_of_unique
    intro x hx
    rcases mem_merge2.mp hx with ⟨op, hop, p, hp2, hk, rfl⟩
    exact filter_key_length_one ho (h2 op hop)
  have l3 : (merge2 (merge2 (merge2 order_products products (·.product_id) (·.product_id)
      Prod.mk) orders (fun x => x.1.order_id) (·.order_id) Prod.mk)
      departments (fun x => x.1.2.department_id) (·.department_id)
      (fun x d => mkMergedRow x.1.1 x.1.2 x.2 d)).length =
      (merge2 (merge2 order_products products (·.product_id) (·.product_id) Prod.mk)
        orders (fun x => x.1.order_id) (·.order_id) Prod.mk).length := by
    apply length_merge2_of_unique
    intro x hx
    rcases mem_merge2.mp hx with ⟨y, hy, o, ho2, hk2, rfl⟩
    rcases mem_merge2.mp hy with ⟨op, hop, p, hp2, hk3, rfl⟩
    exact filter_key_length_one hd (h3 p hp2 ⟨op, hop, hk3.symm⟩)
  exact l3.trans (l2.trans l1)

/-- Witness for C5: the end-to-end fixture has full referential integrity
and its merged table has as many rows as its fact table. -/
theorem prepare_merged_length_witness :
    (prepare_merged exProducts exOrders exOrderProducts exDepartments).length =
      exOrderProducts.length :=
  prepare_merged_length exProducts exOrders exOrderProducts exDepartments
    (by decide) (by decide) (by decide) (by decide) (by decide) (by decide)

theorem prepare_merged_flat (products : List Product) (orders : List Order)
    (order_products : List OrderProduct) (departments : List Department) :
    prepare_merged products orders order_products departments =
      order_products.flatMap fun op =>
        (products.filter fun p => p.product_id == op.product_id).flatMap fun p =>
          (orders.filter fun o => o.order_id == op.order_id).flatMap fun o =>
            (departments.filter fun d => d.department_id == p.department_id).map
              fun d => mkMergedRow op p o d := by
  simp only [prepare_merged, merge2, List.flatMap_assoc, List.flatMap_map]

theorem prepare_mergedPDO_flat (products : List Product) (orders : List Order)
    (order_products : List OrderProduct) (departments : List Department) :
    prepare_mergedPDO products orders order_products departments =
      order_products.flatMap fun op =>
        (products.filter fun p => p.product_id == op.product_id).flatMap fun p =>
          (departments.filter fun d => d.department_id == p.department_id).flatMap fun d =>
            (orders.filter fun o => o.order_id == op.order_id).map
              fun o => mkMergedRow op p o d := by
  simp only [prepare_mergedPDO, merge2, List.flatMap_assoc, List.flatMap_map]

theorem prepare_mergedOPD_flat (products : List Product) (orders : List Order)
    (order_products : List OrderProduct) (departments : List Department) :
    prepare_mergedOPD products orders order_products departments =
      order_products.flatMap fun op =>
        (orders.filter fun o => o.order_id == op.order_id).flatMap fun o =>
          (products.filter fun p => p.product_id == op.product_id).flatMap fun p =>
            (departments.filter fun d => d.department_id == p.department_id).map
              fun d => mkMergedRow op p o d := by
  simp only [prepare_mergedOPD, merge2, List.flatMap_assoc, List.flatMap_map]

/-- C6: the three inner equality joins give the same denormalized table up
to row order in every order in which each join's key column is available:
joining Product, Department, Order and joining Order, Product, Department
both yield a permutation of the code's Product, Order, Department order. -/
theorem prepare_merged_join_order (products : List Product) (orders : List Order)
    (order_products : List OrderProduct) (departments : List Department) :
    (prepare_mergedPDO products orders order_products departments).Perm
      (prepare_merged products orders order_products departments) ∧
    (prepare_mergedOPD products orders order_products departments).Perm
      (prepare_merged products orders order_products departments) := by
  constructor
  · rw [prepare_mergedPDO_flat, prepare_merged_flat, ← Multiset.coe_eq_coe]
    simp only [← Multiset.coe_bind, ← Multiset.map_coe]
    refine Multiset.bind_congr fun op _ => Multiset.bind_congr fun p _ => ?_
    exact Multiset.bind_map_comm _ _
  · rw [prepare_mergedOPD_flat, prepare_merged_flat, ← Multiset.coe_eq_coe]
    simp only [← Multiset.coe_bind, ← Multiset.map_coe]
    refine Multiset.bind_congr fun op _ => ?_
    exact Multiset.bind_bind _ _

end Instacart
